import Mathlib

/-!
Verification of the pyrevm benchmark runner (`runners/pyrevm/runner.py`).

The runner is a single-file Python program: it decodes a hex-encoded
bytecode file and a hex call-data argument (`bytes.fromhex`), deploys the
bytecode once into a fresh `pyrevm.EVM`, asserts the deployment succeeded,
and then runs `num_runs` timed message calls, printing the elapsed time of
each call in fractional milliseconds, one line per call.

Shallow embedding choices:
  - Strings and characters are Lean `String`/`Char`; bytes are `Nat`.
  - `bytes.fromhex` is embedded after CPython's `_PyBytes_FromHex`
    (Objects/bytesobject.c): runs of ASCII whitespace are skipped between
    byte pairs (and at either end), then two hex digits are required, with
    the second digit demanded immediately (no whitespace inside a pair).
  - The execution engine (`pyrevm.EVM`) is an opaque stateful collaborator;
    it is modelled as an oracle: `deploy` maps its arguments to an address
    plus an `EvmResult`, and the result of the i-th `message_call` is a
    function of the invocation index (standing in for hidden engine state).
  - `time.perf_counter_ns` is modelled as an oracle `clock : Nat → Int`
    giving the k-th reading; the documented monotonicity of
    `perf_counter_ns` becomes an explicit hypothesis where needed.
  - Python float arithmetic `(end - start) / 1e6` is modelled as exact
    rational division by 1000000 (the printed value is a nonneg-preserving
    image of this rational).
  - Effects are made explicit: a run produces a trace of engine events, the
    list of printed measurement lines in order, and an optional fatal
    error.  An uncaught Python exception (nonzero exit status) is modelled
    by `error = some e`; the constructors of `RunError` are named after the
    concrete raise sites in the source, and the spec's conceptual error
    taxonomy (`MissingInputError` etc.) is expressed as a classification of
    those constructors.
-/

/-- `GAS_LIMIT: Final[int] = 1_000_000_000` from the source. -/
def GAS_LIMIT : Nat := 1000000000

/-- `ZERO_ADDRESS` constant from the source. -/
def ZERO_ADDRESS : String := "0x0000000000000000000000000000000000000000"

/-- `CALLER_ADDRESS` constant from the source. -/
def CALLER_ADDRESS : String := "0x1000000000000000000000000000000000000001"

/-- CPython `Py_ISSPACE`: the six ASCII whitespace characters
(tab 9, newline 10, vertical tab 11, form feed 12, carriage return 13,
space 32), as skipped by `bytes.fromhex`. -/
def isPySpace (c : Char) : Bool :=
  c.toNat = 32 || (9 ≤ c.toNat && c.toNat ≤ 13)

/-- CPython `_PyLong_DigitValue` restricted to hexadecimal: the value of a
hex digit character, or `none` for any other character. -/
def hexVal? (c : Char) : Option Nat :=
  if 48 ≤ c.toNat ∧ c.toNat ≤ 57 then some (c.toNat - 48)
  else if 97 ≤ c.toNat ∧ c.toNat ≤ 102 then some (c.toNat - 97 + 10)
  else if 65 ≤ c.toNat ∧ c.toNat ≤ 70 then some (c.toNat - 65 + 10)
  else none

/-- Core loop of CPython's `_PyBytes_FromHex`: skip whitespace; at end of
input stop; otherwise demand a hex digit (the high nibble) immediately
followed by a second hex digit (the low nibble) — whitespace or end of
input in the second position is an error — and emit the byte.  A single
trailing character (the `[c]` case) is either skipped whitespace or an
error: a lone hex digit fails because the digit read for the low nibble is
the string's NUL terminator, which is not a hex digit (this is how an odd
number of digits fails in CPython). -/
def fromhexAux : List Char → Option (List Nat)
  | [] => some []
  | [c] => if isPySpace c then some [] else none
  | c :: d :: rest =>
    if isPySpace c then fromhexAux (d :: rest)
    else
      match hexVal? c, hexVal? d with
      | some hi, some lo => (fromhexAux rest).map (fun bs => (16 * hi + lo) :: bs)
      | _, _ => none

/-- `bytes.fromhex` on a Python `str`: `none` models the `ValueError`
(non-hexadecimal number found / odd-length input). -/
def pyBytesFromhex (s : String) : Option (List Nat) :=
  fromhexAux s.data

/-- Lowercase hex digit character for a nibble value, as produced by
Python's `bytes.hex()`. -/
def hexChar (n : Nat) : Char :=
  if n < 10 then Char.ofNat (48 + n) else Char.ofNat (97 + n - 10)

/-- `bytes.hex()` on a byte list: two lowercase hex digits per byte. -/
def bytesHexAux : List Nat → List Char
  | [] => []
  | b :: bs => hexChar (b / 16) :: hexChar (b % 16) :: bytesHexAux bs

/-- `bytes.hex()` producing a string. -/
def bytesHex (bs : List Nat) : String :=
  ⟨bytesHexAux bs⟩

/-- ASCII lowercasing of one character (for the round-trip law's
"up to letter case"). -/
def asciiToLower (c : Char) : Char :=
  if 65 ≤ c.toNat ∧ c.toNat ≤ 90 then Char.ofNat (c.toNat + 32) else c

/-- ASCII lowercasing of a string. -/
def strToLower (s : String) : String :=
  ⟨s.data.map asciiToLower⟩

/-- Result object reported by the engine for a transaction: the
`is_success` flag inspected after deployment, plus an opaque diagnostic
detail (its repr, used as the assertion message). -/
structure EvmResult where
  is_success : Bool
  detail : String
deriving DecidableEq

/-- Oracle model of the stateful `pyrevm.EVM` collaborator.  `deploy`
returns the fresh contract address and the engine's result for the
deployment transaction; `message_call` gives the engine's result for the
i-th invocation (indexed because the engine mutates between calls).  The
driver never looks at `message_call`'s result. -/
structure Engine where
  deploy : String → List Nat → Nat → String × EvmResult
  message_call : Nat → String → String → List Nat → Nat → EvmResult

/-- One interaction of the driver with the execution engine, in program
order: a deployment with its parameters, or a message call with its
parameters. -/
inductive Event
  | deploy (deployer : String) (code : List Nat) (gas : Nat)
  | call (caller : String) (to_addr : String) (calldata : List Nat) (gas : Nat)
deriving DecidableEq

/-- Whether an event is a deployment. -/
def Event.isDeploy : Event → Bool
  | .deploy _ _ _ => true
  | _ => false

/-- Whether an event is a message call (a timed invocation). -/
def Event.isCall : Event → Bool
  | .call _ _ _ _ => true
  | _ => false

/-- Fatal errors of the program, one constructor per concrete raise site
in the source.  The spec's conceptual taxonomy is the classification
below (`isMissingInputError`, `isMalformedHexError`,
`isDeploymentFailedError`). -/
inductive RunError
  | missingContractCodePath
  | unreadableContractFile
  | malformedContractHex
  | missingCalldata
  | malformedCalldataHex
  | deploymentFailed (detail : EvmResult)
  | missingNumRuns
deriving DecidableEq

/-- Spec taxonomy `MissingInputError`: a required file or argument was
absent.  Concretely: the `assert data_file_path is not None` in
`_load_contract_data` (AssertionError), the `OSError` from `open` on an
absent or unreadable file, the `TypeError` from `bytes.fromhex(None)` when
`--calldata` was not given, and the `TypeError` from `range(None)` when
`--num-runs` was not given. -/
def RunError.isMissingInputError : RunError → Bool
  | .missingContractCodePath => true
  | .unreadableContractFile => true
  | .missingCalldata => true
  | .missingNumRuns => true
  | _ => false

/-- Spec taxonomy `MalformedHexError`: the `ValueError` raised by
`bytes.fromhex` on input it rejects. -/
def RunError.isMalformedHexError : RunError → Bool
  | .malformedContractHex => true
  | .malformedCalldataHex => true
  | _ => false

/-- Spec taxonomy `DeploymentFailedError`: the AssertionError from
`assert evm.result.is_success, evm.result`, carrying the engine's result. -/
def RunError.isDeploymentFailedError : RunError → Bool
  | .deploymentFailed _ => true
  | _ => false

/-- Observable outcome of a run: the engine events in program order, the
measurement lines printed to stdout in order, and the fatal error if the
program aborted (modelling a nonzero exit status). -/
structure Outcome where
  events : List Event
  output : List Rat
  error : Option RunError

/-- The parsed command line (`parse_args`): every flag is optional in the
source (`argparse` without `required=True`), so an absent flag yields
`None`. -/
structure Args where
  contract_code_path : Option String
  calldata : Option String
  num_runs : Option Int

/-- `_load_contract_data`: asserts the path argument is present, opens and
reads the file (absent or unreadable file modelled by `fs path = none`),
and hex-decodes the content. -/
def _load_contract_data (fs : String → Option String) :
    Option String → Except RunError (List Nat)
  | none => .error .missingContractCodePath
  | some p =>
    match fs p with
    | none => .error .unreadableContractFile
    | some content =>
      match pyBytesFromhex content with
      | none => .error .malformedContractHex
      | some bs => .ok bs

/-- The timed invocation loop of `_benchmark`:
`for _ in range(num_runs): start = perf_counter_ns(); bench();
end = perf_counter_ns(); print((end - start) / 1e6)`.
`k` is the number of iterations left and `i` the current invocation index;
iteration `i` consumes clock readings `2*i` and `2*i+1`.  The result of
`evm.message_call` is bound and discarded, exactly as `bench()` does.
Returns the call events and the printed lines, in order. -/
def invokeLoop (engine : Engine) (clock : Nat → Int)
    (caller contract_address : String) (call_data : List Nat) :
    Nat → Nat → List Event × List Rat
  | 0, _ => ([], [])
  | k + 1, i =>
    let start := clock (2 * i)
    let _result := engine.message_call i caller contract_address call_data GAS_LIMIT
    let e := clock (2 * i + 1)
    let line : Rat := ((e - start : Int) : Rat) / 1000000
    let rest := invokeLoop engine clock caller contract_address call_data k (i + 1)
    (Event.call caller contract_address call_data GAS_LIMIT :: rest.1,
     line :: rest.2)

/-- `_benchmark`: deploy once with the fixed caller and gas limit, assert
the engine reported success (else abort with the engine's result), then
run the timed loop.  `range` of a Python int is empty for negative counts
(`Int.toNat`); `range(None)` — the `--num-runs` flag absent — raises after
the deployment, before any iteration. -/
def _benchmark (engine : Engine) (clock : Nat → Int) (caller_address : String)
    (contract_data call_data : List Nat) (num_runs : Option Int) : Outcome :=
  let dr := engine.deploy caller_address contract_data GAS_LIMIT
  let contract_address := dr.1
  let devent := Event.deploy caller_address contract_data GAS_LIMIT
  if dr.2.is_success then
    match num_runs with
    | none => ⟨[devent], [], some .missingNumRuns⟩
    | some n =>
      let r := invokeLoop engine clock caller_address contract_address call_data n.toNat 0
      ⟨devent :: r.1, r.2, none⟩
  else ⟨[devent], [], some (.deploymentFailed dr.2)⟩

/-- The source's `main` (that name is reserved by Lean for entry points):
load the contract bytecode, construct the engine, decode the call data
(`bytes.fromhex(args.calldata)` raises before `_benchmark` is entered — on
a `None` argument too), and run the benchmark with the fixed
`CALLER_ADDRESS`. -/
def mainRun (engine : Engine) (clock : Nat → Int) (fs : String → Option String)
    (args : Args) : Outcome :=
  match _load_contract_data fs args.contract_code_path with
  | .error e => ⟨[], [], some e⟩
  | .ok contract_data =>
    match args.calldata with
    | none => ⟨[], [], some .missingCalldata⟩
    | some cd =>
      match pyBytesFromhex cd with
      | none => ⟨[], [], some .malformedCalldataHex⟩
      | some call_data =>
        _benchmark engine clock CALLER_ADDRESS contract_data call_data args.num_runs

/-- Hex text with whitespace only between byte pairs: each piece is a run
of whitespace followed by two digit characters; `trail` is trailing
whitespace. -/
def renderHex : List (List Char × Char × Char) → List Char → List Char
  | [], trail => trail
  | (ws, a, b) :: rest, trail => ws ++ a :: b :: renderHex rest trail

/-! ### Helper lemmas about the invocation loop -/

theorem invokeLoop_engine_arbitrary (e1 e2 : Engine) (clock : Nat → Int)
    (caller addr : String) (cd : List Nat) :
    ∀ k i, invokeLoop e1 clock caller addr cd k i = invokeLoop e2 clock caller addr cd k i
  | 0, _ => rfl
  | k + 1, i => by
    simp only [invokeLoop]
    rw [invokeLoop_engine_arbitrary e1 e2 clock caller addr cd k (i + 1)]

theorem invokeLoop_events_length (e : Engine) (clock : Nat → Int)
    (caller addr : String) (cd : List Nat) :
    ∀ k i, (invokeLoop e clock caller addr cd k i).1.length = k
  | 0, _ => rfl
  | k + 1, i => by
    simp only [invokeLoop, List.length_cons]
    rw [invokeLoop_events_length e clock caller addr cd k (i + 1)]

theorem invokeLoop_output_length (e : Engine) (clock : Nat → Int)
    (caller addr : String) (cd : List Nat) :
    ∀ k i, (invokeLoop e clock caller addr cd k i).2.length = k
  | 0, _ => rfl
  | k + 1, i => by
    simp only [invokeLoop, List.length_cons]
    rw [invokeLoop_output_length e clock caller addr cd k (i + 1)]

theorem invokeLoop_events_mem (e : Engine) (clock : Nat → Int)
    (caller addr : String) (cd : List Nat) :
    ∀ k i, ∀ ev ∈ (invokeLoop e clock caller addr cd k i).1,
      ev = Event.call caller addr cd GAS_LIMIT
  | 0, _ => by simp [invokeLoop]
  | k + 1, i => by
    simp only [invokeLoop, List.mem_cons]
    rintro ev (rfl | h)
    · rfl
    · exact invokeLoop_events_mem e clock caller addr cd k (i + 1) ev h

theorem invokeLoop_output_getElem (e : Engine) (clock : Nat → Int)
    (caller addr : String) (cd : List Nat) :
    ∀ k i j, j < k → (invokeLoop e clock caller addr cd k i).2[j]? =
      some (((clock (2 * (i + j) + 1) - clock (2 * (i + j)) : Int) : Rat) / 1000000)
  | 0, _, _, hj => absurd hj (by omega)
  | k + 1, i, 0, _ => by simp [invokeLoop]
  | k + 1, i, j + 1, hj => by
    simp only [invokeLoop, List.getElem?_cons_succ]
    have hidx : (i + 1) + j = i + (j + 1) := by omega
    rw [invokeLoop_output_getElem e clock caller addr cd k (i + 1) j (by omega), hidx]

theorem invokeLoop_output_take (e : Engine) (clock : Nat → Int)
    (caller addr : String) (cd : List Nat) :
    ∀ m k i, m ≤ k →
      (invokeLoop e clock caller addr cd k i).2.take m = (invokeLoop e clock caller addr cd m i).2
  | 0, _, _, _ => by simp [invokeLoop]
  | m + 1, 0, _, h => absurd h (by omega)
  | m + 1, k + 1, i, h => by
    simp only [invokeLoop, List.take_succ_cons]
    rw [invokeLoop_output_take e clock caller addr cd m k (i + 1) (by omega)]

theorem invokeLoop_output_nonneg (e : Engine) (clock : Nat → Int)
    (caller addr : String) (cd : List Nat)
    (hmono : ∀ a b : Nat, a ≤ b → clock a ≤ clock b) :
    ∀ k i, ∀ q ∈ (invokeLoop e clock caller addr cd k i).2, 0 ≤ q
  | 0, i => by simp [invokeLoop]
  | k + 1, i => by
    simp only [invokeLoop, List.mem_cons]
    rintro q (rfl | h)
    · apply div_nonneg _ (by norm_num)
      have h1 : clock (2 * i) ≤ clock (2 * i + 1) := hmono _ _ (by omega)
      have h2 : (0 : Int) ≤ clock (2 * i + 1) - clock (2 * i) := by omega
      exact_mod_cast h2
    · exact invokeLoop_output_nonneg e clock caller addr cd hmono k (i + 1) q h

/-! ### Claims -/

/-- C1: for every configured run count N ≥ 0 the driver performs exactly one
deployment call, strictly before the first timed invocation (the deployment
is the first engine event and every later event is a message call), emits
exactly N measurement lines, and completes without error; in particular for
N = 0 it deploys once and emits nothing. -/
theorem c1_deploy_once_emit_n (engine : Engine) (clock : Nat → Int)
    (caller : String) (code call_data : List Nat) (n : Int) (hn : 0 ≤ n)
    (hs : (engine.deploy caller code GAS_LIMIT).2.is_success = true) :
    (_benchmark engine clock caller code call_data (some n)).events.head? =
      some (Event.deploy caller code GAS_LIMIT)
    ∧ (_benchmark engine clock caller code call_data (some n)).events.countP Event.isDeploy = 1
    ∧ (∀ e ∈ (_benchmark engine clock caller code call_data (some n)).events.tail,
        e.isCall = true)
    ∧ ((_benchmark engine clock caller code call_data (some n)).output.length : Int) = n
    ∧ (_benchmark engine clock caller code call_data (some n)).error = none := by
  refine ⟨?_, ?_, ?_, ?_, ?_⟩
  · simp [_benchmark, hs]
  · have hz : (invokeLoop engine clock caller
        (engine.deploy caller code GAS_LIMIT).1 call_data n.toNat 0).1.countP Event.isDeploy = 0 := by
      rw [List.countP_eq_zero]
      intro ev hev
      rw [invokeLoop_events_mem engine clock caller _ call_data n.toNat 0 ev hev]
      simp [Event.isDeploy]
    simp [_benchmark, hs, List.countP_cons, hz, Event.isDeploy]
  · intro e he
    simp only [_benchmark, hs, if_true, List.tail_cons] at he
    rw [invokeLoop_events_mem engine clock caller _ call_data n.toNat 0 e he]
    rfl
  · simp only [_benchmark, hs, if_true]
    rw [invokeLoop_output_length]
    exact Int.toNat_of_nonneg hn
  · simp [_benchmark, hs]

/-- C2: if the engine reports deployment failure, the driver aborts with a
`DeploymentFailedError` carrying the engine's failure detail (the engine's
result object), no invocation is attempted, and zero measurement lines are
emitted — for any configured run count, present or absent. -/
theorem c2_deployment_failure_fatal (engine : Engine) (clock : Nat → Int)
    (caller : String) (code call_data : List Nat) (num_runs : Option Int)
    (hf : (engine.deploy caller code GAS_LIMIT).2.is_success = false) :
    (_benchmark engine clock caller code call_data num_runs).error =
      some (RunError.deploymentFailed (engine.deploy caller code GAS_LIMIT).2)
    ∧ (RunError.deploymentFailed (engine.deploy caller code GAS_LIMIT).2).isDeploymentFailedError = true
    ∧ (_benchmark engine clock caller code call_data num_runs).output = []
    ∧ (∀ e ∈ (_benchmark engine clock caller code call_data num_runs).events, e.isCall = false) := by
  refine ⟨?_, ?_, ?_, ?_⟩
  · simp [_benchmark, hf]
  · rfl
  · simp [_benchmark, hf]
  · intro e he
    simp only [_benchmark, hf, Bool.false_eq_true, if_false, List.mem_singleton] at he
    subst he
    rfl

/-- C4: the driver never inspects the result of an invocation: the whole
outcome (events, output, error) is unchanged under any change of the
engine's per-invocation `message_call` results, and — deployment having
succeeded — it still emits one measurement line per invocation and
finishes without error. -/
theorem c4_call_results_ignored (engine engine2 : Engine) (clock : Nat → Int)
    (caller : String) (code call_data : List Nat) (n : Int)
    (hdep : engine2.deploy = engine.deploy)
    (hs : (engine.deploy caller code GAS_LIMIT).2.is_success = true) :
    _benchmark engine2 clock caller code call_data (some n) =
      _benchmark engine clock caller code call_data (some n)
    ∧ (_benchmark engine clock caller code call_data (some n)).output.length = n.toNat
    ∧ (_benchmark engine clock caller code call_data (some n)).error = none := by
  refine ⟨?_, ?_, ?_⟩
  · simp only [_benchmark, hdep]
    rw [invokeLoop_engine_arbitrary engine2 engine]
  · simp only [_benchmark, hs, if_true]
    rw [invokeLoop_output_length]
  · simp [_benchmark, hs]

/-- C9: a negative run count is not validated and not an error: `range`
of a negative int is empty, so the run is identical to a run with count 0 —
one deployment, no measurement lines, successful completion. -/
theorem c9_negative_run_count (engine : Engine) (clock : Nat → Int)
    (caller : String) (code call_data : List Nat) (n : Int) (hn : n < 0)
    (hs : (engine.deploy caller code GAS_LIMIT).2.is_success = true) :
    _benchmark engine clock caller code call_data (some n) =
      _benchmark engine clock caller code call_data (some 0)
    ∧ (_benchmark engine clock caller code call_data (some n)).error = none
    ∧ (_benchmark engine clock caller code call_data (some n)).output = []
    ∧ (_benchmark engine clock caller code call_data (some n)).events.countP Event.isDeploy = 1 := by
  have htn : n.toNat = 0 := Int.toNat_of_nonpos (by omega)
  refine ⟨?_, ?_, ?_, ?_⟩
  · simp only [_benchmark, htn, Int.toNat_zero]
  · simp [_benchmark, hs]
  · simp [_benchmark, hs, htn, invokeLoop]
  · simp only [_benchmark, hs, if_true, htn, invokeLoop]
    rfl

/-- C3: for N ≥ 1 the driver emits exactly N measurement lines; each is a
non-negative duration (clock monotonicity is the documented guarantee of
`time.perf_counter_ns`); the j-th line is exactly the elapsed time of the
j-th invocation converted to fractional milliseconds; and the lines are
streamed in invocation order: a run stopped after any k ≤ N invocations
has printed exactly the first k lines of the N-run output. -/
theorem c3_n_lines_nonneg_ordered (engine : Engine) (clock : Nat → Int)
    (caller : String) (code call_data : List Nat) (n : Int) (hn : 1 ≤ n)
    (hs : (engine.deploy caller code GAS_LIMIT).2.is_success = true)
    (hmono : ∀ a b : Nat, a ≤ b → clock a ≤ clock b) :
    ((_benchmark engine clock caller code call_data (some n)).output.length : Int) = n
    ∧ (∀ q ∈ (_benchmark engine clock caller code call_data (some n)).output, 0 ≤ q)
    ∧ (∀ j, j < n.toNat →
        (_benchmark engine clock caller code call_data (some n)).output[j]? =
          some (((clock (2 * j + 1) - clock (2 * j) : Int) : Rat) / 1000000))
    ∧ (∀ k : Int, 0 ≤ k → k ≤ n →
        (_benchmark engine clock caller code call_data (some k)).output =
          (_benchmark engine clock caller code call_data (some n)).output.take k.toNat) := by
  refine ⟨?_, ?_, ?_, ?_⟩
  · simp only [_benchmark, hs, if_true]
    rw [invokeLoop_output_length]
    exact Int.toNat_of_nonneg (by omega)
  · intro q hq
    simp only [_benchmark, hs, if_true] at hq
    exact invokeLoop_output_nonneg engine clock caller _ call_data hmono n.toNat 0 q hq
  · intro j hj
    simp only [_benchmark, hs, if_true]
    have hg := invokeLoop_output_getElem engine clock caller
      (engine.deploy caller code GAS_LIMIT).1 call_data n.toNat 0 j hj
    simpa using hg
  · intro k hk0 hkn
    simp only [_benchmark, hs, if_true]
    rw [invokeLoop_output_take engine clock caller _ call_data k.toNat n.toNat 0 (by omega)]

/-- Every engine event of a `_benchmark` run is either the one deployment
with its parameters, or a message call addressed to the handle returned by
that deployment, with the run's call data and the fixed gas limit. -/
theorem _benchmark_event_mem (engine : Engine) (clock : Nat → Int)
    (caller : String) (code call_data : List Nat) (num_runs : Option Int) :
    ∀ e ∈ (_benchmark engine clock caller code call_data num_runs).events,
      e = Event.deploy caller code GAS_LIMIT
      ∨ e = Event.call caller (engine.deploy caller code GAS_LIMIT).1 call_data GAS_LIMIT := by
  intro e he
  by_cases hs : (engine.deploy caller code GAS_LIMIT).2.is_success = true
  · cases num_runs with
    | none =>
      simp only [_benchmark, hs, if_true, List.mem_singleton] at he
      exact Or.inl he
    | some n =>
      simp only [_benchmark, hs, if_true, List.mem_cons] at he
      rcases he with rfl | h
      · exact Or.inl rfl
      · exact Or.inr (invokeLoop_events_mem engine clock caller _ call_data n.toNat 0 e h)
  · simp only [_benchmark, if_neg hs, List.mem_singleton] at he
    exact Or.inl he

/-- A `_benchmark` run records exactly one deployment event. -/
theorem _benchmark_countP_deploy (engine : Engine) (clock : Nat → Int)
    (caller : String) (code call_data : List Nat) (num_runs : Option Int) :
    (_benchmark engine clock caller code call_data num_runs).events.countP Event.isDeploy = 1 := by
  by_cases hs : (engine.deploy caller code GAS_LIMIT).2.is_success = true
  · cases num_runs with
    | none => simp [_benchmark, hs, Event.isDeploy]
    | some n =>
      have hz : (invokeLoop engine clock caller
          (engine.deploy caller code GAS_LIMIT).1 call_data n.toNat 0).1.countP Event.isDeploy = 0 := by
        rw [List.countP_eq_zero]
        intro ev hev
        rw [invokeLoop_events_mem engine clock caller _ call_data n.toNat 0 ev hev]
        simp [Event.isDeploy]
      simp [_benchmark, hs, List.countP_cons, hz, Event.isDeploy]
  · simp only [_benchmark, if_neg hs]
    simp [Event.isDeploy]

/-- C8: throughout a run with all inputs present and decodable, there is a
single deployment event, and every event uses the fixed `CALLER_ADDRESS`
and the fixed `GAS_LIMIT`: the deployment deploys the loaded bytecode, and
every invocation targets exactly the contract handle returned by that
deployment, with the same decoded call data every time. -/
theorem c8_fixed_caller_gas_target (engine : Engine) (clock : Nat → Int)
    (fs : String → Option String) (args : Args) (p content : String)
    (code : List Nat) (cd : String) (call_data : List Nat)
    (hp : args.contract_code_path = some p) (hfile : fs p = some content)
    (hdec : pyBytesFromhex content = some code)
    (hcd : args.calldata = some cd) (hcddec : pyBytesFromhex cd = some call_data) :
    (mainRun engine clock fs args).events.countP Event.isDeploy = 1
    ∧ ∀ e ∈ (mainRun engine clock fs args).events,
        (e.isDeploy = true → e = Event.deploy CALLER_ADDRESS code GAS_LIMIT)
        ∧ (e.isCall = true →
            e = Event.call CALLER_ADDRESS
              (engine.deploy CALLER_ADDRESS code GAS_LIMIT).1 call_data GAS_LIMIT) := by
  have hm : mainRun engine clock fs args =
      _benchmark engine clock CALLER_ADDRESS code call_data args.num_runs := by
    simp [mainRun, _load_contract_data, hp, hfile, hdec, hcd, hcddec]
  rw [hm]
  refine ⟨_benchmark_countP_deploy engine clock CALLER_ADDRESS code call_data args.num_runs, ?_⟩
  intro e he
  rcases _benchmark_event_mem engine clock CALLER_ADDRESS code call_data args.num_runs e he with
    rfl | rfl
  · exact ⟨fun _ => rfl, fun h => by simp [Event.isCall] at h⟩
  · exact ⟨fun h => by simp [Event.isDeploy] at h, fun _ => rfl⟩

/-- C7: in an otherwise well-formed run (whatever hex is actually read
decodes, and the engine accepts the deployment), the absence of any
required input — the bytecode path flag, the bytecode file itself, the
call-data flag, or the run-count flag — makes the program abort with an
error classified as `MissingInputError` (an uncaught exception, hence a
nonzero exit status) and zero measurement lines. -/
theorem c7_missing_input_fatal (engine : Engine) (clock : Nat → Int)
    (fs : String → Option String) (args : Args)
    (hfileok : ∀ p content, args.contract_code_path = some p → fs p = some content →
        (pyBytesFromhex content).isSome = true)
    (hcdok : ∀ cd, args.calldata = some cd → (pyBytesFromhex cd).isSome = true)
    (hdepok : ∀ code, (engine.deploy CALLER_ADDRESS code GAS_LIMIT).2.is_success = true)
    (habs : args.contract_code_path = none
      ∨ (∃ p, args.contract_code_path = some p ∧ fs p = none)
      ∨ args.calldata = none
      ∨ args.num_runs = none) :
    ∃ e, (mainRun engine clock fs args).error = some e
      ∧ e.isMissingInputError = true
      ∧ (mainRun engine clock fs args).output = [] := by
  cases hp : args.contract_code_path with
  | none =>
    refine ⟨.missingContractCodePath, ?_, rfl, ?_⟩ <;>
      simp [mainRun, _load_contract_data, hp]
  | some p =>
    cases hf : fs p with
    | none =>
      refine ⟨.unreadableContractFile, ?_, rfl, ?_⟩ <;>
        simp [mainRun, _load_contract_data, hp, hf]
    | some content =>
      obtain ⟨code, hdec⟩ := Option.isSome_iff_exists.mp (hfileok p content hp hf)
      cases hcd : args.calldata with
      | none =>
        refine ⟨.missingCalldata, ?_, rfl, ?_⟩ <;>
          simp [mainRun, _load_contract_data, hp, hf, hdec, hcd]
      | some cd =>
        obtain ⟨call_data, hcddec⟩ := Option.isSome_iff_exists.mp (hcdok cd hcd)
        have hnum : args.num_runs = none := by
          rcases habs with h | ⟨q, hq, hfq⟩ | h | h
          · rw [hp] at h; cases h
          · rw [hp] at hq
            cases hq
            rw [hf] at hfq
            cases hfq
          · rw [hcd] at h; cases h
          · exact h
        refine ⟨.missingNumRuns, ?_, rfl, ?_⟩ <;>
          simp [mainRun, _load_contract_data, hp, hf, hdec, hcd, hcddec, hnum,
            _benchmark, hdepok code]

/-- C5 counterexample: the file content made of five characters
`6`, `0`, `0`, `0`, newline has odd length and contains a character that
is not a hex digit, yet the run does not fail with a malformed-hex error:
the content decodes (whitespace is skipped by `bytes.fromhex`) and the
program proceeds to the deployment. -/
theorem c5_counterexample_odd_whitespace :
    ("6000\n".length % 2 = 1)
    ∧ (("6000\n".data.any fun c => (hexVal? c).isNone) = true)
    ∧ ((mainRun ⟨fun _ _ _ => ("a", ⟨true, "ok"⟩), fun _ _ _ _ _ => ⟨true, "ok"⟩⟩
        (fun i => (i : Int)) (fun _ => some "6000\n")
        ⟨some "f", some "", some 0⟩).error = none)
    ∧ ((mainRun ⟨fun _ _ _ => ("a", ⟨true, "ok"⟩), fun _ _ _ _ _ => ⟨true, "ok"⟩⟩
        (fun i => (i : Int)) (fun _ => some "6000\n")
        ⟨some "f", some "", some 0⟩).events =
          [Event.deploy CALLER_ADDRESS [96, 0] GAS_LIMIT]) := by
  refine ⟨by decide, by decide, by decide, by decide⟩

/-- C5 amended: for any bytecode file content or call-data string that the
hex decoder rejects — a character that is neither a hex digit nor ASCII
whitespace (such as in the string made of `6`, `0`, `g`, `0`), whitespace
or end of input where the second digit of a byte pair is expected (in
particular an odd number of hex digits) — the program fails fatally with a
`MalformedHexError` before any deployment attempt (no engine event at
all), and emits zero measurement lines. -/
theorem c5_malformed_hex_fatal (engine : Engine) (clock : Nat → Int)
    (fs : String → Option String) (args : Args) (p content : String)
    (hp : args.contract_code_path = some p) (hfile : fs p = some content)
    (hbad : pyBytesFromhex content = none
      ∨ ∃ bs cd, pyBytesFromhex content = some bs ∧ args.calldata = some cd
          ∧ pyBytesFromhex cd = none) :
    ∃ e, (mainRun engine clock fs args).error = some e
      ∧ e.isMalformedHexError = true
      ∧ (mainRun engine clock fs args).events = []
      ∧ (mainRun engine clock fs args).output = [] := by
  rcases hbad with hnone | ⟨bs, cd, hdec, hcd, hcdnone⟩
  · refine ⟨.malformedContractHex, ?_, rfl, ?_, ?_⟩ <;>
      simp [mainRun, _load_contract_data, hp, hfile, hnone]
  · refine ⟨.malformedCalldataHex, ?_, rfl, ?_, ?_⟩ <;>
      simp [mainRun, _load_contract_data, hp, hfile, hdec, hcd, hcdnone]

/-- A hex digit character is not ASCII whitespace (the digit ranges and
the whitespace codes are disjoint). -/
theorem hexVal_not_space (c : Char) (h : (hexVal? c).isSome = true) :
    isPySpace c = false := by
  unfold hexVal? at h
  split_ifs at h with h1 h2 h3
  · simp only [isPySpace, Bool.or_eq_false_iff, Bool.and_eq_false_iff,
      decide_eq_false_iff_not]
    omega
  · simp only [isPySpace, Bool.or_eq_false_iff, Bool.and_eq_false_iff,
      decide_eq_false_iff_not]
    omega
  · simp only [isPySpace, Bool.or_eq_false_iff, Bool.and_eq_false_iff,
      decide_eq_false_iff_not]
    omega
  · simp at h

/-- Decoding a hex digit and re-encoding its value gives the lowercased
digit back, and the value is a nibble. -/
theorem hexVal_hexChar_toLower (c : Char) (v : Nat) (h : hexVal? c = some v) :
    v < 16 ∧ hexChar v = asciiToLower c := by
  unfold hexVal? at h
  split_ifs at h with h1 h2 h3
  · cases h
    refine ⟨by omega, ?_⟩
    unfold hexChar asciiToLower
    rw [if_pos (by omega), if_neg (by omega)]
    have he : 48 + (c.toNat - 48) = c.toNat := by omega
    rw [he, Char.ofNat_toNat]
  · cases h
    refine ⟨by omega, ?_⟩
    unfold hexChar asciiToLower
    rw [if_neg (by omega), if_neg (by omega)]
    have he : 97 + (c.toNat - 97 + 10) - 10 = c.toNat := by omega
    rw [he, Char.ofNat_toNat]
  · cases h
    refine ⟨by omega, ?_⟩
    unfold hexChar asciiToLower
    rw [if_neg (by omega), if_pos (by omega)]
    congr 1
    omega

/-- Round trip at the character-list level: an even-length string of pure
hex digits decodes, and re-encoding the bytes gives back the lowercased
digits. -/
theorem fromhexAux_strict_roundtrip :
    ∀ s : List Char, s.length % 2 = 0 →
      (∀ c ∈ s, (hexVal? c).isSome = true) →
      ∃ bs, fromhexAux s = some bs ∧ bytesHexAux bs = s.map asciiToLower
  | [], _, _ => ⟨[], rfl, rfl⟩
  | [c], h, _ => by simp at h
  | a :: b :: rest, h, hall => by
    have hlen : rest.length % 2 = 0 := by
      simp only [List.length_cons] at h
      omega
    obtain ⟨bs, h1, h2⟩ := fromhexAux_strict_roundtrip rest hlen
      (fun c hc => hall c (by simp [hc]))
    have hva := hall a (by simp)
    have hvb := hall b (by simp)
    obtain ⟨va, hva'⟩ := Option.isSome_iff_exists.mp hva
    obtain ⟨vb, hvb'⟩ := Option.isSome_iff_exists.mp hvb
    obtain ⟨hva16, hvac⟩ := hexVal_hexChar_toLower a va hva'
    obtain ⟨hvb16, hvbc⟩ := hexVal_hexChar_toLower b vb hvb'
    have hnspa := hexVal_not_space a hva
    refine ⟨(16 * va + vb) :: bs, ?_, ?_⟩
    · simp only [fromhexAux, hnspa, Bool.false_eq_true, if_false, hva', hvb', h1,
        Option.map_some']
    · simp only [bytesHexAux, List.map_cons, h2]
      have hdiv : (16 * va + vb) / 16 = va := by omega
      have hmod : (16 * va + vb) % 16 = vb := by omega
      rw [hdiv, hmod, hvac, hvbc]

/-- C6: round-trip law of the Input Loader — every valid hexadecimal
string (an even-length string of hex digit characters) decodes, and
re-encoding the resulting bytes with `bytes.hex()` yields the original
string up to letter case. -/
theorem c6_hex_roundtrip (s : String) (heven : s.data.length % 2 = 0)
    (hhex : ∀ c ∈ s.data, (hexVal? c).isSome = true) :
    ∃ bs, pyBytesFromhex s = some bs ∧ bytesHex bs = strToLower s := by
  obtain ⟨bs, h1, h2⟩ := fromhexAux_strict_roundtrip s.data heven hhex
  refine ⟨bs, h1, ?_⟩
  simp only [bytesHex, strToLower]
  exact congrArg String.mk h2

/-- A leading whitespace character is skipped by the decoder. -/
theorem fromhexAux_cons_space (w : Char) (l : List Char)
    (hw : isPySpace w = true) : fromhexAux (w :: l) = fromhexAux l := by
  cases l with
  | nil => simp [fromhexAux, hw]
  | cons d rest => simp [fromhexAux, hw]

/-- Skipping a run of ASCII whitespace does not change what
`bytes.fromhex` decodes. -/
theorem fromhexAux_skip_ws :
    ∀ ws l : List Char, (∀ c ∈ ws, isPySpace c = true) →
      fromhexAux (ws ++ l) = fromhexAux l
  | [], _, _ => rfl
  | w :: ws, l, h => by
    show fromhexAux (w :: (ws ++ l)) = fromhexAux l
    rw [fromhexAux_cons_space w _ (h w (by simp))]
    exact fromhexAux_skip_ws ws l (fun c hc => h c (by simp [hc]))

/-- C10: the Input Loader accepts hexadecimal text with ASCII whitespace
around byte pairs — leading or between-pair whitespace runs and trailing
whitespace (for example a trailing newline in the bytecode file, or spaces
between byte pairs) — and decodes it to exactly the bytes denoted by the
hex digit pairs alone. -/
theorem c10_whitespace_accepted :
    ∀ (pieces : List (List Char × Char × Char)) (trail : List Char),
      (∀ pc ∈ pieces, (∀ c ∈ pc.1, isPySpace c = true)
          ∧ (hexVal? pc.2.1).isSome = true ∧ (hexVal? pc.2.2).isSome = true) →
      (∀ c ∈ trail, isPySpace c = true) →
      pyBytesFromhex ⟨renderHex pieces trail⟩ =
        some (pieces.map fun pc => 16 * (hexVal? pc.2.1).getD 0 + (hexVal? pc.2.2).getD 0)
  | [], trail, _, htrail => by
    show fromhexAux (renderHex [] trail) = some []
    rw [renderHex]
    simpa using fromhexAux_skip_ws trail [] htrail
  | (ws, a, b) :: rest, trail, hall, htrail => by
    obtain ⟨hws0, hva0, hvb0⟩ := hall (ws, a, b) (by simp)
    have hws : ∀ c ∈ ws, isPySpace c = true := hws0
    have hva : (hexVal? a).isSome = true := hva0
    have hvb : (hexVal? b).isSome = true := hvb0
    obtain ⟨va, hva'⟩ := Option.isSome_iff_exists.mp hva
    obtain ⟨vb, hvb'⟩ := Option.isSome_iff_exists.mp hvb
    have hnspa := hexVal_not_space a hva
    have IH := c10_whitespace_accepted rest trail
      (fun pc hpc => hall pc (by simp [hpc])) htrail
    show fromhexAux (renderHex ((ws, a, b) :: rest) trail) = _
    rw [renderHex, fromhexAux_skip_ws ws _ hws]
    have IH' : fromhexAux (renderHex rest trail) =
        some (rest.map fun pc => 16 * (hexVal? pc.2.1).getD 0 + (hexVal? pc.2.2).getD 0) := IH
    simp only [fromhexAux, hnspa, Bool.false_eq_true, if_false, hva', hvb', IH',
      Option.map_some', List.map_cons, Option.getD_some]

/-! ### Concrete oracles for witness instantiations -/

/-- A concrete engine whose deployments always succeed. -/
def okEngine : Engine :=
  ⟨fun _ _ _ => ("0xdeployed", ⟨true, "ok"⟩), fun _ _ _ _ _ => ⟨true, "ok"⟩⟩

/-- A concrete engine whose deployment fails. -/
def failEngine : Engine :=
  ⟨fun _ _ _ => ("0xdeployed", ⟨false, "revert"⟩), fun _ _ _ _ _ => ⟨true, "ok"⟩⟩

/-- A concrete engine with the same deployments as `okEngine` but failing
message calls. -/
def callFailEngine : Engine :=
  ⟨fun _ _ _ => ("0xdeployed", ⟨true, "ok"⟩), fun _ _ _ _ _ => ⟨false, "revert"⟩⟩

/-- A concrete monotone clock. -/
def natClock : Nat → Int := fun i => (i : Int)

/-- Witness for C1 at run count 2. -/
theorem c1_witness :
    ((0 : Int) ≤ 2
      ∧ (okEngine.deploy "c" [96] GAS_LIMIT).2.is_success = true)
    ∧ ((_benchmark okEngine natClock "c" [96] [] (some 2)).events.head? =
          some (Event.deploy "c" [96] GAS_LIMIT)
        ∧ (_benchmark okEngine natClock "c" [96] [] (some 2)).events.countP Event.isDeploy = 1
        ∧ (∀ e ∈ (_benchmark okEngine natClock "c" [96] [] (some 2)).events.tail,
            e.isCall = true)
        ∧ ((_benchmark okEngine natClock "c" [96] [] (some 2)).output.length : Int) = 2
        ∧ (_benchmark okEngine natClock "c" [96] [] (some 2)).error = none) :=
  ⟨⟨by decide, by decide⟩,
    c1_deploy_once_emit_n okEngine natClock "c" [96] [] 2 (by decide) (by decide)⟩

/-- Witness for C2 with a failing deployment. -/
theorem c2_witness :
    ((failEngine.deploy "c" [96] GAS_LIMIT).2.is_success = false)
    ∧ ((_benchmark failEngine natClock "c" [96] [] (some 3)).error =
          some (RunError.deploymentFailed (failEngine.deploy "c" [96] GAS_LIMIT).2)
        ∧ (RunError.deploymentFailed
            (failEngine.deploy "c" [96] GAS_LIMIT).2).isDeploymentFailedError = true
        ∧ (_benchmark failEngine natClock "c" [96] [] (some 3)).output = []
        ∧ (∀ e ∈ (_benchmark failEngine natClock "c" [96] [] (some 3)).events,
            e.isCall = false)) :=
  ⟨by decide,
    c2_deployment_failure_fatal failEngine natClock "c" [96] [] (some 3) (by decide)⟩

/-- Witness for C3 at run count 2. -/
theorem c3_witness :
    ((1 : Int) ≤ 2
      ∧ (okEngine.deploy "c" [96] GAS_LIMIT).2.is_success = true
      ∧ (∀ a b : Nat, a ≤ b → natClock a ≤ natClock b))
    ∧ (((_benchmark okEngine natClock "c" [96] [] (some 2)).output.length : Int) = 2
        ∧ (∀ q ∈ (_benchmark okEngine natClock "c" [96] [] (some 2)).output, 0 ≤ q)
        ∧ (∀ j, j < (2 : Int).toNat →
            (_benchmark okEngine natClock "c" [96] [] (some 2)).output[j]? =
              some (((natClock (2 * j + 1) - natClock (2 * j) : Int) : Rat) / 1000000))
        ∧ (∀ k : Int, 0 ≤ k → k ≤ 2 →
            (_benchmark okEngine natClock "c" [96] [] (some k)).output =
              (_benchmark okEngine natClock "c" [96] [] (some 2)).output.take k.toNat)) :=
  ⟨⟨by decide, by decide, fun a b h => by simpa [natClock] using Int.ofNat_le.mpr h⟩,
    c3_n_lines_nonneg_ordered okEngine natClock "c" [96] [] 2 (by decide) (by decide)
      (fun a b h => by simpa [natClock] using Int.ofNat_le.mpr h)⟩

/-- Witness for C4: an engine whose message calls all fail yields the very
same outcome. -/
theorem c4_witness :
    (callFailEngine.deploy = okEngine.deploy
      ∧ (okEngine.deploy "c" [96] GAS_LIMIT).2.is_success = true)
    ∧ (_benchmark callFailEngine natClock "c" [96] [] (some 2) =
          _benchmark okEngine natClock "c" [96] [] (some 2)
        ∧ (_benchmark okEngine natClock "c" [96] [] (some 2)).output.length = (2 : Int).toNat
        ∧ (_benchmark okEngine natClock "c" [96] [] (some 2)).error = none) :=
  ⟨⟨rfl, by decide⟩,
    c4_call_results_ignored okEngine callFailEngine natClock "c" [96] [] 2 rfl (by decide)⟩

/-- Witness for C9 at run count -3. -/
theorem c9_witness :
    ((-3 : Int) < 0
      ∧ (okEngine.deploy "c" [96] GAS_LIMIT).2.is_success = true)
    ∧ (_benchmark okEngine natClock "c" [96] [] (some (-3)) =
          _benchmark okEngine natClock "c" [96] [] (some 0)
        ∧ (_benchmark okEngine natClock "c" [96] [] (some (-3))).error = none
        ∧ (_benchmark okEngine natClock "c" [96] [] (some (-3))).output = []
        ∧ (_benchmark okEngine natClock "c" [96] [] (some (-3))).events.countP
            Event.isDeploy = 1) :=
  ⟨⟨by decide, by decide⟩,
    c9_negative_run_count okEngine natClock "c" [96] [] (-3) (by decide) (by decide)⟩

/-- Witness for C8 with bytecode file "6000" and call data "00". -/
theorem c8_witness :
    ((⟨some "f", some "00", some 1⟩ : Args).contract_code_path = some "f"
      ∧ (fun _ : String => some "6000") "f" = some "6000"
      ∧ pyBytesFromhex "6000" = some [96, 0]
      ∧ (⟨some "f", some "00", some 1⟩ : Args).calldata = some "00"
      ∧ pyBytesFromhex "00" = some [0])
    ∧ ((mainRun okEngine natClock (fun _ => some "6000")
          ⟨some "f", some "00", some 1⟩).events.countP Event.isDeploy = 1
        ∧ ∀ e ∈ (mainRun okEngine natClock (fun _ => some "6000")
            ⟨some "f", some "00", some 1⟩).events,
          (e.isDeploy = true → e = Event.deploy CALLER_ADDRESS [96, 0] GAS_LIMIT)
          ∧ (e.isCall = true →
              e = Event.call CALLER_ADDRESS
                (okEngine.deploy CALLER_ADDRESS [96, 0] GAS_LIMIT).1 [0] GAS_LIMIT)) :=
  ⟨⟨rfl, rfl, by decide, rfl, by decide⟩,
    c8_fixed_caller_gas_target okEngine natClock (fun _ => some "6000")
      ⟨some "f", some "00", some 1⟩ "f" "6000" [96, 0] "00" [0]
      rfl rfl (by decide) rfl (by decide)⟩

/-- Witness for C7: the run-count flag is absent, the other inputs are
well formed. -/
theorem c7_witness :
    ((∀ p content, (⟨some "f", some "", none⟩ : Args).contract_code_path = some p →
        (fun _ : String => some "6000") p = some content →
        (pyBytesFromhex content).isSome = true)
      ∧ (∀ cd, (⟨some "f", some "", none⟩ : Args).calldata = some cd →
          (pyBytesFromhex cd).isSome = true)
      ∧ (∀ code, (okEngine.deploy CALLER_ADDRESS code GAS_LIMIT).2.is_success = true)
      ∧ (⟨some "f", some "", none⟩ : Args).num_runs = none)
    ∧ (∃ e, (mainRun okEngine natClock (fun _ => some "6000")
          ⟨some "f", some "", none⟩).error = some e
        ∧ e.isMissingInputError = true
        ∧ (mainRun okEngine natClock (fun _ => some "6000")
            ⟨some "f", some "", none⟩).output = []) :=
  ⟨⟨fun p content hp hc => by cases hp; cases hc; decide,
    fun cd h => by cases h; decide,
    fun _ => rfl, rfl⟩,
    c7_missing_input_fatal okEngine natClock (fun _ => some "6000")
      ⟨some "f", some "", none⟩
      (fun p content hp hc => by cases hp; cases hc; decide)
      (fun cd h => by cases h; decide)
      (fun _ => rfl)
      (Or.inr (Or.inr (Or.inr rfl)))⟩

/-- Witness for the amended C5: bytecode file content "60g0" is rejected
by the decoder and the run fails before any deployment. -/
theorem c5_witness :
    ((⟨some "f", some "", some 1⟩ : Args).contract_code_path = some "f"
      ∧ (fun _ : String => some "60g0") "f" = some "60g0"
      ∧ pyBytesFromhex "60g0" = none)
    ∧ (∃ e, (mainRun okEngine natClock (fun _ => some "60g0")
          ⟨some "f", some "", some 1⟩).error = some e
        ∧ e.isMalformedHexError = true
        ∧ (mainRun okEngine natClock (fun _ => some "60g0")
            ⟨some "f", some "", some 1⟩).events = []
        ∧ (mainRun okEngine natClock (fun _ => some "60g0")
            ⟨some "f", some "", some 1⟩).output = []) :=
  ⟨⟨rfl, rfl, by decide⟩,
    c5_malformed_hex_fatal okEngine natClock (fun _ => some "60g0")
      ⟨some "f", some "", some 1⟩ "f" "60g0" rfl rfl (Or.inl (by decide))⟩

/-- Witness for C6 on the mixed-case valid hex string "60Ff". -/
theorem c6_witness :
    ("60Ff".data.length % 2 = 0
      ∧ (∀ c ∈ "60Ff".data, (hexVal? c).isSome = true))
    ∧ (∃ bs, pyBytesFromhex "60Ff" = some bs ∧ bytesHex bs = strToLower "60Ff") :=
  ⟨⟨by decide, by decide⟩, c6_hex_roundtrip "60Ff" (by decide) (by decide)⟩

/-- Witness for C10: the pieces rendering to the five characters
`6`, `0`, space, `f`, `f` with a trailing newline decode to the two bytes
0x60 and 0xff. -/
theorem c10_witness :
    ((∀ pc ∈ [(([] : List Char), '6', '0'), ([' '], 'f', 'f')],
        (∀ c ∈ pc.1, isPySpace c = true)
        ∧ (hexVal? pc.2.1).isSome = true ∧ (hexVal? pc.2.2).isSome = true)
      ∧ (∀ c ∈ ['\n'], isPySpace c = true))
    ∧ pyBytesFromhex ⟨renderHex [(([] : List Char), '6', '0'), ([' '], 'f', 'f')] ['\n']⟩ =
        some ([(([] : List Char), '6', '0'), ([' '], 'f', 'f')].map
          fun pc => 16 * (hexVal? pc.2.1).getD 0 + (hexVal? pc.2.2).getD 0) :=
  ⟨⟨by decide, by decide⟩,
    c10_whitespace_accepted [(([] : List Char), '6', '0'), ([' '], 'f', 'f')] ['\n']
      (by decide) (by decide)⟩
